import Mathlib

/-!
Verification of the fuzzpaint-thumbnailer core (src/main.rs) against its
natural-language specification.

The development shallowly embeds the program's core pieces:
* `MyTake` — the clamped, seekable window over an inner stream
  (struct MyTake plus its Read, BufRead and Seek impls);
* `read_fzp_thmb` — the RIFF-style chunk scanner;
* `readQoiStage` — the decode-stage control flow of `main` (dimension
  checks and pixel-buffer allocation);
* `try_metas` — the PNG text-metadata writer.

Machine integers are embedded as `Nat` / `Int` with the source's checked
or saturating operations made explicit; fallible operations return
`Except String`.
-/

/-- 2^64, the modulus of the u64 cursor arithmetic in MyTake. -/
def U64_MOD : Nat := 18446744073709551616

/-- 2^63 - 1, i64::MAX, the saturation bound of the u64 -> i64 casts. -/
def I64_MAX : Nat := 9223372036854775807

/-- 2^32, the modulus of the u32 size fields of the container format. -/
def U32_MOD : Nat := 4294967296

/-- Bail if the thumb image is larger than this (const MAX_INPUT_IMAGE_DIMENSION: u32 = 1024). -/
def MAX_INPUT_IMAGE_DIMENSION : Nat := 1024

/-- const MIME_TYPE: the fixed MIME string of the container format. -/
def MIME_TYPE : String := "application/x.fuzzpaint-doc"

/-- The window state of `struct MyTake` from src/main.rs: `cursor` and `len`
are the u64 fields; the inner reader is supplied separately where an
operation needs it. -/
structure MyTake where
  cursor : Nat
  len : Nat
deriving DecidableEq, Repr

/-- `MyTake::remaining`: `len.checked_sub(cursor).expect(..)`. The source
panics when `cursor > len`; under the documented invariant `cursor ≤ len`
it equals `len - cursor`, embedded as truncated subtraction. -/
def MyTake.remaining (t : MyTake) : Nat := t.len - t.cursor

/-- `std::io::SeekFrom`: the three seek origins. `fromEnd` embeds
`SeekFrom::End` (End is a reserved word in Lean). Offsets of `current`
and `fromEnd` are i64; `start` takes a u64. -/
inductive SeekFrom where
  | start (pos : Nat)
  | current (delta : Int)
  | fromEnd (delta : Int)
deriving DecidableEq, Repr

/-- `<MyTake as Seek>::seek` from src/main.rs, translated clause by clause.
* Current(delta): positive deltas are first clamped by
  `delta.min(self.remaining().saturating_as())` — the u64 remaining
  saturates into i64 — then `cursor.checked_add_signed(delta)` errors
  (message "seek offset overflows cursor") when the sum leaves the u64
  range, which also catches past-the-start results.
* Start(pos): `pos.min(self.remaining())` — note the source clamps by
  remaining, not by len.
* End(pos): `let pos = pos.max(0).unsigned_abs()` then
  `len.checked_sub(pos)`, erroring with "seek offset past-the-start" —
  note `.max(0)` maps every negative offset to magnitude 0.
Afterwards the relative inner seek computes the i64 delta
`new_cursor - cursor` through checked u64 -> i64 casts, erroring when
either cursor exceeds i64::MAX; the inner reader's own seek is assumed
to succeed (a plain file seek). On success the new window-relative
cursor is stored and returned. -/
def MyTake.seek (t : MyTake) (pos : SeekFrom) : Except String (MyTake × Nat) :=
  let new_cursor! : Except String Nat :=
    match pos with
    | .current delta =>
      let delta : Int :=
        if 0 < delta then min delta ((min t.remaining I64_MAX : Nat) : Int) else delta
      let c : Int := (t.cursor : Int) + delta
      if 0 ≤ c ∧ c < (U64_MOD : Int) then .ok c.toNat
      else .error "seek offset overflows cursor"
    | .start pos => .ok (min pos t.remaining)
    | .fromEnd pos =>
      let pos : Nat := (max pos 0).toNat
      if pos ≤ t.len then .ok (t.len - pos)
      else .error "seek offset past-the-start"
  match new_cursor! with
  | .error e => .error e
  | .ok new_cursor =>
    if new_cursor ≤ I64_MAX ∧ t.cursor ≤ I64_MAX then
      .ok ({ t with cursor := new_cursor }, new_cursor)
    else .error "delta seek overflows"

/-- `<MyTake as Read>::read` from src/main.rs. `innerRead n` models the
inner reader's answer `self.reader.read(buf)` for a buffer of length
`n` (its reported byte count, or an error it propagates). The request is
trimmed to `min(buf.len(), remaining)` (the saturating u64 -> usize cast
is the identity on 64-bit); an empty trimmed buffer short-circuits to
`Ok(0)` without touching the inner reader; otherwise the cursor advances
by the reported count through `checked_add`, whose only failure mode is
u64 overflow ("inner reader overflowed MyTake cursor"); the guard
`new_cursor ≤ len` exists merely as a `debug_assert!`. -/
def MyTake.read (t : MyTake) (bufLen : Nat) (innerRead : Nat → Except String Nat) :
    Except String (MyTake × Nat) :=
  let trimmed_len : Nat := min bufLen t.remaining
  if trimmed_len = 0 then .ok (t, 0)
  else
    match innerRead trimmed_len with
    | .error e => .error e
    | .ok num_read =>
      if t.cursor + num_read < U64_MOD then
        .ok ({ t with cursor := t.cursor + num_read }, num_read)
      else .error "inner reader overflowed MyTake cursor"

/-- Runs a sequence of reads through a MyTake: each request pairs a caller
buffer length with the inner reader's behavior for that call. Returns the
final state and the total byte count reported. -/
def MyTake.readSeq (t : MyTake) :
    List (Nat × (Nat → Except String Nat)) → Except String (MyTake × Nat)
  | [] => .ok (t, 0)
  | (b, f) :: rest =>
    match t.read b f with
    | .error e => .error e
    | .ok (t1, n) =>
      match t1.readSeq rest with
      | .error e => .error e
      | .ok (t2, m) => .ok (t2, n + m)

/-- An inner reader is well behaved when it reports success with at most as
many bytes as the buffer it was handed can hold (the `Read` contract). -/
def WellBehaved (f : Nat → Except String Nat) : Prop :=
  ∀ n, ∃ k, f n = .ok k ∧ k ≤ n

/-- Claim C1: the spec says a from-end seek with non-positive offset -m sets
the cursor to len - m and fails past-the-start when m exceeds len. The code
instead maps every negative offset to magnitude 0 (pos.max(0) where min was
intended), so on a window of length 10 a seek End(-3) lands on 10 rather
than 7, and End(-15) succeeds at 10 rather than failing. -/
theorem mytake_seek_fromEnd_neg_eval :
    MyTake.seek ⟨0, 10⟩ (.fromEnd (-3)) = .ok (⟨10, 10⟩, 10) ∧
    MyTake.seek ⟨0, 10⟩ (.fromEnd (-15)) = .ok (⟨10, 10⟩, 10) ∧
    (10 : Nat) ≠ 10 - 3 := by
  refine ⟨rfl, rfl, by decide⟩

/-- Claim C2: the spec says a from-start seek target t yields cursor
min(t, len) independent of the current cursor. The code clamps by
remaining() = len - cursor instead: on a window of length 10, seeking to 4
and then to 8 lands on 6, not min(8, 10) = 8. -/
theorem mytake_seek_start_eval :
    MyTake.seek ⟨0, 10⟩ (.start 4) = .ok (⟨4, 10⟩, 4) ∧
    MyTake.seek ⟨4, 10⟩ (.start 8) = .ok (⟨6, 10⟩, 6) ∧
    (6 : Nat) ≠ min 8 10 := by
  refine ⟨rfl, rfl, by decide⟩

/-- Claim C9: the spec says a read in which the inner reader reports more
bytes than the remaining capacity returns an overflow error. The code only
checks u64 overflow of the cursor (the capacity bound is a debug_assert!),
so with len 5 and an inner reader reporting 6 bytes the read returns Ok(6)
and the cursor lands past the window at 6 > 5. -/
theorem mytake_read_misbehaving_eval :
    MyTake.read ⟨0, 5⟩ 10 (fun _ => .ok 6) = .ok (⟨6, 5⟩, 6) ∧
    ¬ (6 : Nat) ≤ 5 := by
  refine ⟨rfl, by decide⟩

/-- A single read through a well-behaved inner reader advances the cursor by
some k bounded by the clamped request min(bufLen, len - cursor). -/
theorem mytake_read_wb (c l b : Nat) (f : Nat → Except String Nat)
    (h : c ≤ l) (hlen : l < U64_MOD) (hf : WellBehaved f) :
    ∃ k, MyTake.read ⟨c, l⟩ b f = .ok (⟨c + k, l⟩, k) ∧ k ≤ min b (l - c) := by
  simp only [MyTake.read, MyTake.remaining]
  by_cases h0 : min b (l - c) = 0
  · exact ⟨0, by simp [h0], by omega⟩
  · obtain ⟨k, hk, hkle⟩ := hf (min b (l - c))
    refine ⟨k, ?_, hkle⟩
    rw [if_neg h0, hk]
    have hck : c + k < U64_MOD := by omega
    simp [hck]

/-- A sequence of reads through well-behaved inner readers succeeds, the
cursor advances by exactly the total reported, and stays within the window. -/
theorem mytake_readSeq_wb (reqs : List (Nat × (Nat → Except String Nat))) :
    ∀ c l : Nat, c ≤ l → l < U64_MOD → (∀ p ∈ reqs, WellBehaved p.2) →
    ∃ c' total, MyTake.readSeq ⟨c, l⟩ reqs = .ok (⟨c', l⟩, total) ∧
      c' = c + total ∧ c' ≤ l := by
  induction reqs with
  | nil =>
    intro c l h _ _
    exact ⟨c, 0, rfl, by omega, h⟩
  | cons p rest ih =>
    intro c l h hlen hwb
    obtain ⟨b, f⟩ := p
    obtain ⟨k, hk, hkle⟩ :=
      mytake_read_wb c l b f h hlen (hwb (b, f) (List.mem_cons_self _ _))
    obtain ⟨c', m, hseq, hcm, hcl⟩ :=
      ih (c + k) l (by omega) hlen (fun q hq => hwb q (List.mem_cons_of_mem _ hq))
    refine ⟨c', k + m, ?_, by omega, hcl⟩
    simp only [MyTake.readSeq, hk, hseq]

/-- Claim C3: every read request is shrunk to min(requested, len - cursor);
an empty clamped request returns 0 bytes without invoking the inner reader
(the result is Ok(t, 0) for every inner behavior); a read on an exhausted
window returns Ok 0 rather than an error; and over a well-behaved inner
reader any sequence of reads succeeds with a total of at most len bytes,
the cursor never passing len. -/
theorem mytake_read_clamp_total (t : MyTake) (h : t.cursor ≤ t.len)
    (hlen : t.len < U64_MOD)
    (reqs : List (Nat × (Nat → Except String Nat)))
    (hwb : ∀ p ∈ reqs, WellBehaved p.2) :
    (∀ bufLen f, min bufLen t.remaining = 0 → t.read bufLen f = .ok (t, 0)) ∧
    (t.cursor = t.len → ∀ bufLen f, t.read bufLen f = .ok (t, 0)) ∧
    (∀ bufLen f t' n, WellBehaved f → t.read bufLen f = .ok (t', n) →
      n ≤ min bufLen (t.len - t.cursor)) ∧
    (∃ t' total, t.readSeq reqs = .ok (t', total) ∧ total ≤ t.len ∧
      t'.cursor = t.cursor + total ∧ t'.cursor ≤ t.len) := by
  obtain ⟨c, l⟩ := t
  simp only [MyTake.remaining] at *
  refine ⟨?_, ?_, ?_, ?_⟩
  · intro bufLen f h0
    simp [MyTake.read, MyTake.remaining, h0]
  · intro hcl bufLen f
    have h0 : min bufLen (l - c) = 0 := by omega
    simp [MyTake.read, MyTake.remaining, h0]
  · intro bufLen f t' n hf hread
    obtain ⟨k, hk, hkle⟩ := mytake_read_wb c l bufLen f h hlen hf
    rw [hk] at hread
    have hnk : n = k := by
      injection hread with h1
      exact (congrArg Prod.snd h1).symm
    omega
  · obtain ⟨c', total, hseq, hct, hcl⟩ := mytake_readSeq_wb reqs c l h hlen hwb
    exact ⟨⟨c', l⟩, total, hseq, by omega, by simpa using hct, hcl⟩

/-- Witness for claim C3 at the concrete window of length 4 with reads of
requested sizes 3 and 10 through well-behaved inner readers. -/
theorem mytake_read_clamp_total_witness :
    (∀ bufLen f, min bufLen (MyTake.remaining ⟨0, 4⟩) = 0 →
      MyTake.read ⟨0, 4⟩ bufLen f = .ok (⟨0, 4⟩, 0)) ∧
    (MyTake.cursor ⟨0, 4⟩ = MyTake.len ⟨0, 4⟩ →
      ∀ bufLen f, MyTake.read ⟨0, 4⟩ bufLen f = .ok (⟨0, 4⟩, 0)) ∧
    (∀ bufLen f t' n, WellBehaved f →
      MyTake.read ⟨0, 4⟩ bufLen f = .ok (t', n) → n ≤ min bufLen (4 - 0)) ∧
    (∃ t' total,
      MyTake.readSeq ⟨0, 4⟩ [(3, fun n => .ok n), (10, fun n => .ok (n - 1))] =
        .ok (t', total) ∧
      total ≤ 4 ∧ t'.cursor = 0 + total ∧ t'.cursor ≤ 4) :=
  mytake_read_clamp_total ⟨0, 4⟩ (by decide) (by decide)
    [(3, fun n => .ok n), (10, fun n => .ok (n - 1))]
    (by
      intro p hp
      simp only [List.mem_cons, List.not_mem_nil, or_false] at hp
      rcases hp with h | h
      · subst h; intro n; exact ⟨n, rfl, Nat.le_refl n⟩
      · subst h; intro n; exact ⟨n - 1, rfl, Nat.sub_le n 1⟩)

/-- The byte source feeding the scanner: a BufReader over a file, embedded
as the file's bytes plus the current position. Seeking may place the
position past the end (legal for files); a subsequent exact read then
fails. -/
structure ByteStream where
  data : List Nat
  pos : Nat
deriving DecidableEq, Repr

/-- `Read::read_exact(&mut [u8; n])`: yields the next n bytes and advances,
or fails with the UnexpectedEof message when fewer than n bytes remain. -/
def ByteStream.readExact (s : ByteStream) (n : Nat) :
    Except String (List Nat × ByteStream) :=
  if s.pos + n ≤ s.data.length then
    .ok ((s.data.drop s.pos).take n, ⟨s.data, s.pos + n⟩)
  else .error "failed to fill whole buffer"

/-- `u32::from_le_bytes` on a 4-byte slice (little-endian); bytes are
reduced mod 256 so the value always lies below 2^32. -/
def fromLE4 : List Nat → Nat
  | [a, b, c, d] =>
    a % 256 + 256 * (b % 256) + 65536 * (c % 256) + 16777216 * (d % 256)
  | _ => 0

/-- `u32::to_le_bytes`: the 4-byte little-endian encoding of n. -/
def le32 (n : Nat) : List Nat :=
  [n % 256, n / 256 % 256, n / 65536 % 256, n / 16777216 % 256]

/-- The four tag constants of src/main.rs: b"RIFF", b"fzp " and b"thmb". -/
def riffTag : List Nat := [82, 73, 70, 70]

/-- b"fzp " (bytes of the form-type tag). -/
def fzpTag : List Nat := [102, 122, 112, 32]

/-- b"thmb" (bytes of the target chunk tag). -/
def thmbTag : List Nat := [116, 104, 109, 98]

/-- The `read_block` closure of read_fzp_thmb: reads an 8-byte chunk header
and returns the 4-byte tag and the little-endian u32 size. -/
def read_block (s : ByteStream) :
    Except String ((List Nat × Nat) × ByteStream) :=
  match s.readExact 8 with
  | .error e => .error e
  | .ok (hdr, s) => .ok ((hdr.take 4, fromLE4 (hdr.drop 4)), s)

/-- `read_fzp_thmb` from src/main.rs: reads the 12-byte container header
(magic "RIFF", little-endian u32 total size, form type "fzp "), then
inspects at most two chunk headers for the tag "thmb". On a tag match it
returns the stream (positioned at the chunk payload) together with the
window length `block_size.min(remaining_file_size)` for the MyTake. When
chunk #1 does not match, it seeks forward by that chunk's declared size,
saturating-subtracts `block_size` and then `8` from the remaining file
size (Nat subtraction is the saturating u32 subtraction), and tries chunk
#2; a second mismatch is the not-found error. -/
def read_fzp_thmb (s : ByteStream) : Except String (ByteStream × Nat) :=
  match s.readExact 12 with
  | .error e => .error e
  | .ok (fzp_header, s) =>
    if fzp_header.take 4 = riffTag ∧ fzp_header.drop 8 = fzpTag then
      let remaining_file_size := fromLE4 ((fzp_header.drop 4).take 4)
      match read_block s with
      | .error e => .error e
      | .ok ((block_header, block_size), s) =>
        if block_header = thmbTag then
          .ok (s, min block_size remaining_file_size)
        else
          let s : ByteStream := ⟨s.data, s.pos + block_size⟩
          let remaining := remaining_file_size - block_size - 8
          match read_block s with
          | .error e => .error e
          | .ok ((block_header, block_size), s) =>
            if block_header = thmbTag then
              .ok (s, min block_size remaining)
            else
              .error "document does not contain a thumbnail"
    else .error "unrecognized file type"

/-- A container image laid out as the scanner expects: 12-byte header, then
chunk #1 (tag, size, payload), then chunk #2's 8-byte header followed by
whatever bytes come after it. -/
def mkContainer (total : Nat) (tag1 : List Nat) (size1 : Nat)
    (payload1 : List Nat) (tag2 : List Nat) (size2 : Nat)
    (rest : List Nat) : List Nat :=
  riffTag ++ le32 total ++ fzpTag ++ tag1 ++ le32 size1 ++ payload1 ++
    tag2 ++ le32 size2 ++ rest

/-- Reading n bytes at a position that splits the data as pre ++ (mid ++ post)
with mid of length n yields exactly mid and advances the position by n. -/
theorem readExact_at (D pre mid post : List Nat) (n p : Nat)
    (hD : D = pre ++ (mid ++ post)) (hp : p = pre.length)
    (hn : mid.length = n) :
    ByteStream.readExact ⟨D, p⟩ n = .ok (mid, ⟨D, p + n⟩) := by
  subst hD hp
  unfold ByteStream.readExact
  have hle : pre.length + n ≤ (pre ++ (mid ++ post)).length := by
    simp [List.length_append]
    omega
  rw [if_pos hle]
  have h1 : (pre ++ (mid ++ post)).drop pre.length = mid ++ post :=
    List.drop_left _ _
  rw [h1, List.take_left' hn]

/-- take/drop facts about the 12-byte container header. -/
theorem hdr12_facts (total : Nat) :
    (riffTag ++ (le32 total ++ fzpTag)).take 4 = riffTag ∧
    (riffTag ++ (le32 total ++ fzpTag)).drop 8 = fzpTag ∧
    ((riffTag ++ (le32 total ++ fzpTag)).drop 4).take 4 = le32 total := by
  have h1 : riffTag ++ (le32 total ++ fzpTag) = (riffTag ++ le32 total) ++ fzpTag :=
    (List.append_assoc _ _ _).symm
  refine ⟨List.take_left' rfl, ?_, ?_⟩
  · rw [h1]
    exact List.drop_left' (by simp [riffTag, le32])
  · have hr4 : riffTag.length = 4 := rfl
    have hl4 : (le32 total).length = 4 := rfl
    rw [List.drop_left' hr4, List.take_left' hl4]

/-- Little-endian 4-byte roundtrip for u32 values. -/
theorem fromLE4_le32 (n : Nat) (h : n < U32_MOD) : fromLE4 (le32 n) = n := by
  simp only [fromLE4, le32, U32_MOD] at *
  omega

/-- Reading a chunk header whose bytes split the data as
pre ++ ((tag ++ le32 size) ++ post) yields the tag and the size. -/
theorem read_block_at (D pre tag post : List Nat) (size p : Nat)
    (hD : D = pre ++ ((tag ++ le32 size) ++ post)) (hp : p = pre.length)
    (htag : tag.length = 4) (hsize : size < U32_MOD) :
    read_block ⟨D, p⟩ = .ok ((tag, size), ⟨D, p + 8⟩) := by
  have h8 : ByteStream.readExact ⟨D, p⟩ 8 = .ok (tag ++ le32 size, ⟨D, p + 8⟩) :=
    readExact_at D pre (tag ++ le32 size) post 8 p hD hp
      (by simp [le32, htag])
  simp only [read_block, h8]
  rw [List.take_left' htag, List.drop_left' htag, fromLE4_le32 size hsize]

/-- Full evaluation of the scanner on a two-chunk container: a matching
chunk #1 yields the window min(size1, total) at the payload position 20; a
matching chunk #2 yields min(size2, total - size1 - 8) at position
28 + size1; otherwise the not-found error. -/
theorem read_fzp_thmb_eval (total size1 size2 : Nat)
    (tag1 tag2 payload1 rest : List Nat)
    (htotal : total < U32_MOD) (hsize1 : size1 < U32_MOD)
    (hsize2 : size2 < U32_MOD) (htag1 : tag1.length = 4)
    (htag2 : tag2.length = 4) (hpay : payload1.length = size1) :
    read_fzp_thmb ⟨mkContainer total tag1 size1 payload1 tag2 size2 rest, 0⟩ =
      if tag1 = thmbTag then
        .ok (⟨mkContainer total tag1 size1 payload1 tag2 size2 rest, 20⟩,
          min size1 total)
      else if tag2 = thmbTag then
        .ok (⟨mkContainer total tag1 size1 payload1 tag2 size2 rest, 28 + size1⟩,
          min size2 (total - size1 - 8))
      else .error "document does not contain a thumbnail" := by
  have hD : mkContainer total tag1 size1 payload1 tag2 size2 rest =
      [] ++ ((riffTag ++ (le32 total ++ fzpTag)) ++
        (tag1 ++ (le32 size1 ++ (payload1 ++ (tag2 ++ (le32 size2 ++ rest)))))) := by
    simp [mkContainer]
  have h12 : ByteStream.readExact
      ⟨mkContainer total tag1 size1 payload1 tag2 size2 rest, 0⟩ 12 =
      .ok (riffTag ++ (le32 total ++ fzpTag),
        ⟨mkContainer total tag1 size1 payload1 tag2 size2 rest, 12⟩) := by
    have h := readExact_at _ [] (riffTag ++ (le32 total ++ fzpTag)) _ 12 0 hD rfl
      (by simp [riffTag, le32, fzpTag])
    simpa using h
  have hb1 : read_block ⟨mkContainer total tag1 size1 payload1 tag2 size2 rest, 12⟩ =
      .ok ((tag1, size1),
        ⟨mkContainer total tag1 size1 payload1 tag2 size2 rest, 20⟩) := by
    have h := read_block_at (mkContainer total tag1 size1 payload1 tag2 size2 rest)
      (riffTag ++ (le32 total ++ fzpTag)) tag1
      (payload1 ++ (tag2 ++ (le32 size2 ++ rest))) size1 12
      (by simp [mkContainer]) (by simp [riffTag, le32, fzpTag]) htag1 hsize1
    simpa using h
  have hb2 : read_block
      ⟨mkContainer total tag1 size1 payload1 tag2 size2 rest, 20 + size1⟩ =
      .ok ((tag2, size2),
        ⟨mkContainer total tag1 size1 payload1 tag2 size2 rest, 28 + size1⟩) := by
    have h := read_block_at (mkContainer total tag1 size1 payload1 tag2 size2 rest)
      (riffTag ++ (le32 total ++ (fzpTag ++ (tag1 ++ (le32 size1 ++ payload1)))))
      tag2 rest size2 (20 + size1)
      (by simp [mkContainer])
      (by simp only [List.length_append, riffTag, fzpTag, le32, List.length_cons,
        List.length_nil, htag1, hpay]; omega)
      htag2 hsize2
    have he : 20 + size1 + 8 = 28 + size1 := by omega
    rw [he] at h
    exact h
  obtain ⟨hf1, hf2, hf3⟩ := hdr12_facts total
  simp only [read_fzp_thmb, h12, hf1, hf2, hf3, fromLE4_le32 total htotal,
    and_self, if_true, hb1]
  by_cases ht1 : tag1 = thmbTag
  · rw [if_pos ht1, if_pos ht1]
  · rw [if_neg ht1, if_neg ht1]
    simp only [hb2]

/-- Claim C4: when the target tag "thmb" is chunk #1, the returned window
length is min(declared chunk size, declared total size); when it is chunk
#2, the length is min(chunk #2's declared size, total size minus
(chunk #1's size + 8) in saturating (truncated Nat) subtraction). -/
theorem read_fzp_thmb_len_spec (total size1 size2 : Nat)
    (tag1 tag2 payload1 rest : List Nat)
    (htotal : total < U32_MOD) (hsize1 : size1 < U32_MOD)
    (hsize2 : size2 < U32_MOD) (htag1 : tag1.length = 4)
    (htag2 : tag2.length = 4) (hpay : payload1.length = size1) :
    read_fzp_thmb ⟨mkContainer total thmbTag size1 payload1 tag2 size2 rest, 0⟩ =
      .ok (⟨mkContainer total thmbTag size1 payload1 tag2 size2 rest, 20⟩,
        min size1 total) ∧
    (tag1 ≠ thmbTag →
      read_fzp_thmb ⟨mkContainer total tag1 size1 payload1 thmbTag size2 rest, 0⟩ =
        .ok (⟨mkContainer total tag1 size1 payload1 thmbTag size2 rest, 28 + size1⟩,
          min size2 (total - (size1 + 8)))) := by
  constructor
  · have h := read_fzp_thmb_eval total size1 size2 thmbTag tag2 payload1 rest
      htotal hsize1 hsize2 rfl htag2 hpay
    simpa using h
  · intro hne
    have h := read_fzp_thmb_eval total size1 size2 tag1 thmbTag payload1 rest
      htotal hsize1 hsize2 htag1 rfl hpay
    rw [if_neg hne, if_pos rfl, Nat.sub_sub] at h
    exact h

/-- Witness for claim C4 on a concrete container: total size 100, chunk #1
of size 5, chunk #2 of size 7. -/
theorem read_fzp_thmb_len_spec_witness :
    read_fzp_thmb ⟨mkContainer 100 thmbTag 5 [9, 9, 9, 9, 9] [5, 6, 7, 8] 7 [], 0⟩ =
      .ok (⟨mkContainer 100 thmbTag 5 [9, 9, 9, 9, 9] [5, 6, 7, 8] 7 [], 20⟩,
        min 5 100) ∧
    ([1, 2, 3, 4] ≠ thmbTag →
      read_fzp_thmb ⟨mkContainer 100 [1, 2, 3, 4] 5 [9, 9, 9, 9, 9] thmbTag 7 [], 0⟩ =
        .ok (⟨mkContainer 100 [1, 2, 3, 4] 5 [9, 9, 9, 9, 9] thmbTag 7 [], 28 + 5⟩,
          min 7 (100 - (5 + 8)))) :=
  read_fzp_thmb_len_spec 100 5 7 [1, 2, 3, 4] [5, 6, 7, 8] [9, 9, 9, 9, 9] []
    (by decide) (by decide) (by decide) (by decide) (by decide) (by decide)

/-- Claim C8: when neither of the first two chunks carries the tag "thmb",
the scanner fails with the not-found error, and the outcome is the same
whatever bytes follow chunk #2's header — no later chunk is inspected. -/
theorem read_fzp_thmb_notfound (total size1 size2 : Nat)
    (tag1 tag2 payload1 : List Nat)
    (htotal : total < U32_MOD) (hsize1 : size1 < U32_MOD)
    (hsize2 : size2 < U32_MOD) (htag1 : tag1.length = 4)
    (htag2 : tag2.length = 4) (hpay : payload1.length = size1)
    (h1 : tag1 ≠ thmbTag) (h2 : tag2 ≠ thmbTag) :
    ∀ rest rest2 : List Nat,
      read_fzp_thmb ⟨mkContainer total tag1 size1 payload1 tag2 size2 rest, 0⟩ =
        .error "document does not contain a thumbnail" ∧
      read_fzp_thmb ⟨mkContainer total tag1 size1 payload1 tag2 size2 rest, 0⟩ =
        read_fzp_thmb ⟨mkContainer total tag1 size1 payload1 tag2 size2 rest2, 0⟩ := by
  intro rest rest2
  have hA := read_fzp_thmb_eval total size1 size2 tag1 tag2 payload1 rest
    htotal hsize1 hsize2 htag1 htag2 hpay
  have hB := read_fzp_thmb_eval total size1 size2 tag1 tag2 payload1 rest2
    htotal hsize1 hsize2 htag1 htag2 hpay
  rw [if_neg h1, if_neg h2] at hA hB
  exact ⟨hA, hA.trans hB.symm⟩

/-- Witness for claim C8 on a concrete container whose two chunk tags both
differ from "thmb", with two different tails past chunk #2's header. -/
theorem read_fzp_thmb_notfound_witness :
    read_fzp_thmb ⟨mkContainer 100 [1, 2, 3, 4] 3 [7, 7, 7] [5, 6, 7, 8] 9 [0], 0⟩ =
      .error "document does not contain a thumbnail" ∧
    read_fzp_thmb ⟨mkContainer 100 [1, 2, 3, 4] 3 [7, 7, 7] [5, 6, 7, 8] 9 [0], 0⟩ =
      read_fzp_thmb ⟨mkContainer 100 [1, 2, 3, 4] 3 [7, 7, 7] [5, 6, 7, 8] 9 [1, 2], 0⟩ :=
  read_fzp_thmb_notfound 100 3 9 [1, 2, 3, 4] [5, 6, 7, 8] [7, 7, 7]
    (by decide) (by decide) (by decide) (by decide) (by decide) (by decide)
    (by decide) (by decide) [0] [1, 2]

/-- The Read-QOI stage of `main` from src/main.rs: after the decoder parses
the header, `width > MAX_INPUT_IMAGE_DIMENSION || height > ...` is rejected
("thumbnail size exceeds limit"), then zero dimensions are rejected
("thumbnail has zero size"), and only then is the pixel buffer allocated
by `vec![U8x4([0u8; 4]); len_bytes.div_ceil(4)]`. The first component
lists the 4-byte-unit sizes of the pixel-buffer allocations performed
along the control path; the second is the stage's outcome. -/
def readQoiStage (width height requiredBufLen : Nat) :
    List Nat × Except String Nat :=
  if MAX_INPUT_IMAGE_DIMENSION < width ∨ MAX_INPUT_IMAGE_DIMENSION < height then
    ([], .error "thumbnail size exceeds limit")
  else if width = 0 ∨ height = 0 then
    ([], .error "thumbnail has zero size")
  else
    let units := (requiredBufLen + 3) / 4
    ([units], .ok units)

/-- Claim C7: a decoded header whose width or height exceeds 1024 or equals
zero makes the pipeline fail with a size error before the pixel decode
buffer is allocated — the stage performs no allocation at all. -/
theorem qoi_size_check_before_alloc (w h b : Nat)
    (hbad : MAX_INPUT_IMAGE_DIMENSION < w ∨ MAX_INPUT_IMAGE_DIMENSION < h ∨
      w = 0 ∨ h = 0) :
    (readQoiStage w h b).1 = [] ∧ ∃ msg, (readQoiStage w h b).2 = .error msg := by
  unfold readQoiStage
  by_cases h1 : MAX_INPUT_IMAGE_DIMENSION < w ∨ MAX_INPUT_IMAGE_DIMENSION < h
  · rw [if_pos h1]
    exact ⟨rfl, "thumbnail size exceeds limit", rfl⟩
  · have h2 : w = 0 ∨ h = 0 := by tauto
    rw [if_neg h1, if_pos h2]
    exact ⟨rfl, "thumbnail has zero size", rfl⟩

/-- Witness for claim C7 at the oversized header 2000 x 10. -/
theorem qoi_size_check_before_alloc_witness :
    (readQoiStage 2000 10 80000).1 = [] ∧
    ∃ msg, (readQoiStage 2000 10 80000).2 = .error msg :=
  qoi_size_check_before_alloc 2000 10 80000 (by decide)

/-- `try_metas` from `main` in src/main.rs: the PNG text chunks added, in
order, as key/value pairs. The closure captures only the URI argument and
the modification time; the image dimensions are not among its inputs —
the width and height chunks carry the fixed literal "1080". -/
def try_metas (in_uri : String) (modified_unix_secs : Nat) :
    List (String × String) :=
  [("Software", "Fuzzpaint"),
   ("Thumb::URI", in_uri),
   ("Thumb::MTime", toString modified_unix_secs),
   ("Thumb::Mimetype", MIME_TYPE),
   ("Thumb::Image::Width", "1080"),
   ("Thumb::Image::Height", "1080"),
   ("X-Fuzzpaint::Soup", "very good")]

/-- Counterexample to claim C5: on a successful run over a decoded image of
width 100 and height 50 (both positive and within the 1024 limit), the
width and height text chunks hold the literal "1080", not the original
dimensions; no successful run can match the claim, since valid original
dimensions never exceed 1024 while the chunks always read "1080". -/
theorem try_metas_not_original_dims :
    List.lookup "Thumb::Image::Width" (try_metas "file:///tmp/a.fzp" 0) =
      some "1080" ∧
    List.lookup "Thumb::Image::Height" (try_metas "file:///tmp/a.fzp" 0) =
      some "1080" ∧
    ("1080" : String) ≠ toString (100 : Nat) ∧
    ("1080" : String) ≠ toString (50 : Nat) := by
  refine ⟨rfl, rfl, by decide, by decide⟩

/-- Claim C5 as amended: on every successful run the Thumb::Image::Width and
Thumb::Image::Height text chunks carry the fixed literal "1080" regardless
of every run input, hence of both the original and the scaled dimensions. -/
theorem try_metas_fixed_1080 (in_uri : String) (mtime : Nat) :
    List.lookup "Thumb::Image::Width" (try_metas in_uri mtime) = some "1080" ∧
    List.lookup "Thumb::Image::Height" (try_metas in_uri mtime) = some "1080" :=
  ⟨rfl, rfl⟩

/-- Claim C10: every successful run also embeds the extra text chunk
"X-Fuzzpaint::Soup" with value "very good", beyond the keys the spec
enumerates. -/
theorem try_metas_soup (in_uri : String) (mtime : Nat) :
    ("X-Fuzzpaint::Soup", "very good") ∈ try_metas in_uri mtime ∧
    List.lookup "X-Fuzzpaint::Soup" (try_metas in_uri mtime) =
      some "very good" := by
  refine ⟨?_, rfl⟩
  exact List.mem_cons_of_mem _ (List.mem_cons_of_mem _ (List.mem_cons_of_mem _
    (List.mem_cons_of_mem _ (List.mem_cons_of_mem _ (List.mem_cons_of_mem _
      (List.mem_cons_self _ _))))))
